import Mathlib

/-!
Verification of the Nexus leaderboard service against its design
specification.

The development shallowly embeds the TypeScript service layer
(`src/services/dynamodb.ts`, here `part_002`) and the Lambda handlers
(`submitScore.ts`, `getTopPlayers.ts`, `getUserRank` / `getUserPercentile`
handlers, `getUserScores` handler, `utils/response.ts`) as executable Lean
functions.

Modelling conventions:
- A leaderboard partition is a `List LeaderboardEntry` in storage order
  (the order the items sit in the table / RankIndex for equal scores;
  DynamoDB's order among equal GSI sort-key values is not constrained by
  the repository's code, so it is surfaced as the list order).
- A DynamoDB `Query` on the RankIndex with `ScanIndexForward: false` is
  modelled as a stable sort of the matching entries by score descending
  followed by `take limit`.
- JavaScript numbers appearing in the percentile arithmetic are modelled
  by `JSNum` (exact rationals plus `nan` / infinities) so that division
  by zero behaves as in JavaScript, not as in Lean's `ℚ`.
- JavaScript truthiness of `previousScore : number | undefined` is
  modelled on `Option Int` (`none`, `some 0` are falsy).
- Fallible validation code returns `Except String`.
-/

namespace Nexus

/-- A row of the single-table design: one score record per
(leaderboard partition, player).  `PK`/`SK`/timestamp/metadata are
omitted: the partition is fixed by the enclosing list and no claim
mentions timestamps or metadata. -/
structure LeaderboardEntry where
  userID : String
  playerName : String
  score : Int
  deriving DecidableEq

/-- Result shape of `DynamoDBService.submitScore`. -/
structure SubmitResult where
  success : Bool
  previousScore : Option Int
  isNewRecord : Bool
  deriving DecidableEq

/-- Result shape of `DynamoDBService.getUserRank`. -/
structure RankInfo where
  rank : Nat
  totalPlayers : Nat
  userScore : Int
  deriving DecidableEq

/-- `DynamoDBService.getUserScore`: `GetCommand` on the main table by
(PK, SK), i.e. the unique entry of the partition with the given user id
(first match in storage order). -/
def getUserScore (part : List LeaderboardEntry) (userId : String) :
    Option LeaderboardEntry :=
  part.find? (fun e => e.userID == userId)

/-- A `PutCommand`: overwrites the item with the same key if present,
otherwise inserts it. -/
def putItem (part : List LeaderboardEntry) (item : LeaderboardEntry) :
    List LeaderboardEntry :=
  if part.any (fun e => e.userID == item.userID) then
    part.map (fun e => if e.userID == item.userID then item else e)
  else
    part ++ [item]

/-- JavaScript truthiness of `previousScore : number | undefined`:
`undefined` and `0` are falsy. -/
def jsTruthy (v : Option Int) : Bool :=
  match v with
  | none => false
  | some n => n != 0

/-- JavaScript `score > previousScore` where `previousScore` may be
`undefined` (any comparison with `undefined` is false). -/
def jsGreater (a : Int) (v : Option Int) : Bool :=
  match v with
  | none => false
  | some b => a > b

/-- `DynamoDBService.submitScore` (read phase): the initial
`getUserScore` read capturing `previousScore`. -/
def submitReadPhase (part : List LeaderboardEntry) (userId : String) :
    Option Int :=
  (getUserScore part userId).map (fun e => e.score)

/-- `DynamoDBService.submitScore` (decision): the source's
`const isNewRecord = !previousScore || score > previousScore`. -/
def isNewRecordCalc (score : Int) (previousScore : Option Int) : Bool :=
  !(jsTruthy previousScore) || jsGreater score previousScore

/-- `DynamoDBService.submitScore` (write phase): the unconditional
`PutCommand` issued when `isNewRecord`, together with the returned
result object.  Split from the read phase because the source performs
two separate storage commands with no condition expression. -/
def submitWritePhase (part : List LeaderboardEntry)
    (userId playerName : String) (score : Int) (previousScore : Option Int) :
    List LeaderboardEntry × SubmitResult :=
  if isNewRecordCalc score previousScore then
    (putItem part ⟨userId, playerName, score⟩,
     ⟨true, previousScore, true⟩)
  else
    (part, ⟨true, previousScore, false⟩)

/-- `DynamoDBService.submitScore`, sequential (non-interleaved) run:
read `previousScore`, then conditionally put. -/
def submitScore (part : List LeaderboardEntry)
    (userId playerName : String) (score : Int) :
    List LeaderboardEntry × SubmitResult :=
  submitWritePhase part userId playerName score (submitReadPhase part userId)

/-- `submitScore.ts` handler: `const scoreImprovement =
result.previousScore ? Score - result.previousScore : Score`. -/
def scoreImprovement (score : Int) (previousScore : Option Int) : Int :=
  match previousScore with
  | none => score
  | some p => if p != 0 then score - p else score

/-- Stable insertion (descending by score) of one entry into an already
descending list: the entry goes after every entry with a score ≥ its
own, matching a stable sort with comparator `(a, b) => b.Score - a.Score`. -/
def insertByScoreDesc (e : LeaderboardEntry) :
    List LeaderboardEntry → List LeaderboardEntry
  | [] => [e]
  | x :: xs =>
      if x.score > e.score then x :: insertByScoreDesc e xs
      else e :: x :: xs

/-- Stable sort by score descending.  Models both the RankIndex order
read with `ScanIndexForward: false` (ties left in storage order, which
the repository's code does not constrain) and the JavaScript stable
`.sort((a, b) => b.Score - a.Score)`. -/
def sortByScoreDesc : List LeaderboardEntry → List LeaderboardEntry
  | [] => []
  | x :: xs => insertByScoreDesc x (sortByScoreDesc xs)

/-- `DynamoDBService.getTopPlayers`: RankIndex query, score descending,
`Limit: count`. -/
def getTopPlayers (part : List LeaderboardEntry) (count : Nat) :
    List LeaderboardEntry :=
  (sortByScoreDesc part).take count

/-- RankIndex COUNT query `PK = :pk AND Score > :userScore`. -/
def countStrictlyGreater (part : List LeaderboardEntry) (s : Int) : Nat :=
  (part.filter (fun e => e.score > s)).length

/-- `DynamoDBService.getUserRank`, with the main-table partition and the
RankIndex contents passed separately: the user lookup is a `GetCommand`
on the main table while both COUNT queries run against the RankIndex
GSI, which is a physically distinct, eventually consistent structure
(`totalPlayers` is `Count || 0`). -/
def getUserRankIdx (table index : List LeaderboardEntry)
    (userId : String) : Option RankInfo :=
  match getUserScore table userId with
  | none => none
  | some e => some ⟨countStrictlyGreater index e.score + 1, index.length, e.score⟩

/-- `DynamoDBService.getUserRank` when the RankIndex agrees with the
main table (the consistent-storage case). -/
def getUserRank (part : List LeaderboardEntry) (userId : String) :
    Option RankInfo :=
  getUserRankIdx part part userId

/-- RankIndex query `Score >= :userScore`, descending, limited. -/
def queryScoreGE (part : List LeaderboardEntry) (s : Int) (limit : Nat) :
    List LeaderboardEntry :=
  (sortByScoreDesc (part.filter (fun e => e.score ≥ s))).take limit

/-- RankIndex query `Score < :userScore`, descending, limited. -/
def queryScoreLT (part : List LeaderboardEntry) (s : Int) (limit : Nat) :
    List LeaderboardEntry :=
  (sortByScoreDesc (part.filter (fun e => e.score < s))).take limit

/-- The source's duplicate filter
`(player, index, self) => index === self.findIndex(p => p.UserID === player.UserID)`:
keeps the first occurrence of each user id. -/
def dedupByUserIDAux (seen : List String) :
    List LeaderboardEntry → List LeaderboardEntry
  | [] => []
  | x :: xs =>
      if seen.contains x.userID then dedupByUserIDAux seen xs
      else x :: dedupByUserIDAux (x.userID :: seen) xs

/-- Keep the first occurrence of each user id, as the source's
`filter`/`findIndex` duplicate removal does. -/
def dedupByUserID (l : List LeaderboardEntry) : List LeaderboardEntry :=
  dedupByUserIDAux [] l

/-- `DynamoDBService.getPlayersAroundUserRank`: fetch up to
`contextSize + 1` entries with score ≥ the user's and up to
`contextSize` entries with score below it (each query taken from the
top of the descending index), concatenate, deduplicate by user id and
sort by score descending. -/
def getPlayersAroundUserRank (part : List LeaderboardEntry)
    (userId : String) (contextSize : Nat) : List LeaderboardEntry :=
  match getUserScore part userId with
  | none => []
  | some ue =>
      let allPlayers :=
        queryScoreGE part ue.score (contextSize + 1) ++
        queryScoreLT part ue.score contextSize
      sortByScoreDesc (dedupByUserID allPlayers)

/-- Round-half-to-even on a rational: the tie-breaking rule IEEE 754
uses when rounding a significand. -/
def roundHalfEven (m : ℚ) : ℤ :=
  if m - ⌊m⌋ < 1 / 2 then ⌊m⌋
  else if 1 / 2 < m - ⌊m⌋ then ⌊m⌋ + 1
  else if ⌊m⌋ % 2 = 0 then ⌊m⌋ else ⌊m⌋ + 1

/-- Rounding an exact rational to the nearest IEEE 754 binary64 double
(round to nearest, ties to even): scale the magnitude into the 53-bit
significand range [2^52, 2^53), round the significand, scale back.
Exponent overflow and subnormals are not modelled; every quantity in
the percentile expression stays far inside the normal range. -/
def roundDouble (q : ℚ) : ℚ :=
  if q = 0 then 0
  else
    (if q < 0 then -1 else 1) *
      (roundHalfEven (|q| / 2 ^ (Int.log 2 |q| - 52)) : ℚ) *
      2 ^ (Int.log 2 |q| - 52)

/-- JavaScript double arithmetic for the percentile expression: exact
rationals extended with `nan` and signed infinities, with every finite
arithmetic result rounded to the nearest binary64 double by
`roundDouble`.  The handlers compute in IEEE 754 doubles and the
rounding is observable: at rank 18 of 40 the doubles yield 57 where
the exact formula yields 58. -/
inductive JSNum where
  | nan
  | posInf
  | negInf
  | num (q : ℚ)
  deriving DecidableEq

/-- JavaScript subtraction (finite results rounded to binary64). -/
def jsSub : JSNum → JSNum → JSNum
  | .nan, _ => .nan
  | _, .nan => .nan
  | .num a, .num b => .num (roundDouble (a - b))
  | .posInf, .posInf => .nan
  | .posInf, _ => .posInf
  | .negInf, .negInf => .nan
  | .negInf, _ => .negInf
  | .num _, .posInf => .negInf
  | .num _, .negInf => .posInf

/-- JavaScript multiplication (finite results rounded to binary64). -/
def jsMul : JSNum → JSNum → JSNum
  | .nan, _ => .nan
  | _, .nan => .nan
  | .num a, .num b => .num (roundDouble (a * b))
  | .num a, .posInf => if a = 0 then .nan else if 0 < a then .posInf else .negInf
  | .num a, .negInf => if a = 0 then .nan else if 0 < a then .negInf else .posInf
  | .posInf, .num b => if b = 0 then .nan else if 0 < b then .posInf else .negInf
  | .negInf, .num b => if b = 0 then .nan else if 0 < b then .negInf else .posInf
  | .posInf, .posInf => .posInf
  | .posInf, .negInf => .negInf
  | .negInf, .posInf => .negInf
  | .negInf, .negInf => .posInf

/-- JavaScript division of two finite numbers (`0/0` is `NaN`, `a/0`
carries the sign of `a`, finite results rounded to binary64). -/
def jsDiv (a b : ℚ) : JSNum :=
  if b = 0 then
    if a = 0 then .nan else if 0 < a then .posInf else .negInf
  else .num (roundDouble (a / b))

/-- `Math.round` on a finite value: round half toward positive infinity. -/
def jsRoundQ (q : ℚ) : ℤ :=
  ⌊q + 1 / 2⌋

/-- `Math.round` on a JavaScript number (`NaN` and infinities map to
themselves). -/
def jsRoundN : JSNum → JSNum
  | .num q => .num (jsRoundQ q)
  | x => x

/-- The percentile expression the handlers share:
`Math.round((1 - (rank - 1) / totalPlayers) * 100)`, evaluated in
IEEE 754 binary64 as JavaScript does: the subtraction `rank - 1`, the
division, the subtraction from 1 and the multiplication by 100 each
round to the nearest double; `Math.round` then rounds the exact value
of the resulting double half toward positive infinity. -/
def percentileOf (rank totalPlayers : Nat) : JSNum :=
  jsRoundN (jsMul (jsSub (.num 1)
    (jsDiv (roundDouble ((rank : ℚ) - 1)) (totalPlayers : ℚ))) (.num 100))

/-- Modelled from the spec: the percentile formula as the specification
states it, `round((1 - (rank - 1) / totalPlayers) * 100)`, as an
integer (used to compare against `percentileOf`). -/
def specPercentile (rank totalPlayers : Nat) : Int :=
  jsRoundQ ((1 - ((rank : ℚ) - 1) / (totalPlayers : ℚ)) * 100)

/-- `getUserScores` handler, `enrichLeaderboardEntry` rank fields: when
`getUserRank` returned nothing the rank, total and percentile are
silently defaulted to `0`; otherwise the percentile expression is
evaluated on whatever the rank info holds. -/
def enrichRankFields (rankInfo : Option RankInfo) : Nat × Nat × JSNum :=
  match rankInfo with
  | some ri => (ri.rank, ri.totalPlayers, percentileOf ri.rank ri.totalPlayers)
  | none => (0, 0, .num 0)

/-- `getUserPercentile` handler, `getPercentileBand`. -/
def getPercentileBand (percentile : Int) : String :=
  if percentile ≥ 99 then "Top 1%"
  else if percentile ≥ 95 then "Top 5%"
  else if percentile ≥ 90 then "Top 10%"
  else if percentile ≥ 75 then "Top 25%"
  else if percentile ≥ 50 then "Top 50%"
  else if percentile ≥ 25 then "Bottom 75%"
  else if percentile ≥ 10 then "Bottom 90%"
  else if percentile ≥ 5 then "Bottom 95%"
  else "Bottom 99%"

/-- JavaScript `parseInt(s, 10)`: skip leading whitespace, optional
sign, longest digit prefix; `NaN` (here `none`) when no digits follow. -/
def jsParseInt (s : String) : Option Int :=
  let cs := s.data.dropWhile (fun c => c == ' ' || c == '\t' || c == '\n' || c == '\r')
  let signed : Int × List Char :=
    match cs with
    | '-' :: rest => (-1, rest)
    | '+' :: rest => (1, rest)
    | _ => (1, cs)
  let ds := signed.2.takeWhile Char.isDigit
  if ds.isEmpty then none
  else some (signed.1 * ((ds.foldl (fun acc c => acc * 10 + (c.toNat - '0'.toNat)) 0 : Nat) : Int))

/-- The `min !== undefined && numValue < min` check. -/
def belowBound (n : Int) : Option Int → Bool
  | some m => n < m
  | none => false

/-- The `max !== undefined && numValue > max` check. -/
def aboveBound (n : Int) : Option Int → Bool
  | some m => n > m
  | none => false

/-- `utils/response.ts`, `parseNumberParameter`: missing or empty value
is rejected, then `parseInt`, then the min bound, then the max bound;
out-of-range values are rejected with an error, never clamped. -/
def parseNumberParameter (value : Option String) (mn mx : Option Int) :
    Except String Int :=
  match value with
  | none => .error "Parameter is required"
  | some v =>
      if v = "" then .error "Parameter is required"
      else
        match jsParseInt v with
        | none => .error "Parameter must be a valid number"
        | some n =>
            if belowBound n mn then
              .error "Parameter must be at least the minimum"
            else if aboveBound n mx then
              .error "Parameter must be at most the maximum"
            else .ok n

/-- Lexicographic comparison of character lists by code point,
executable in the kernel (used for the spec-side playerId order). -/
def charListLt : List Char → List Char → Bool
  | [], [] => false
  | [], _ :: _ => true
  | _ :: _, [] => false
  | a :: as, b :: bs =>
      if a.toNat < b.toNat then true
      else if b.toNat < a.toNat then false
      else charListLt as bs

/-- Lexicographic string comparison by code point. -/
def strLtB (a b : String) : Bool :=
  charListLt a.data b.data

/-- Modelled from the spec: the tie-break order the specification
claims for `topK` — score descending, equal scores ordered by playerId
ascending.  Used only to compare against `getTopPlayers`. -/
def specTieBreakLess (a b : LeaderboardEntry) : Bool :=
  b.score < a.score || (a.score == b.score && strLtB a.userID b.userID)

/-- Insertion step for `specTopK`. -/
def specInsert (e : LeaderboardEntry) :
    List LeaderboardEntry → List LeaderboardEntry
  | [] => [e]
  | x :: xs => if specTieBreakLess e x then e :: x :: xs else x :: specInsert e xs

/-- Modelled from the spec: `topK` as the specification words it
(sorted by score descending, ties broken by playerId ascending,
length ≤ k). -/
def specTopK (part : List LeaderboardEntry) (k : Nat) :
    List LeaderboardEntry :=
  ((part.foldr specInsert []).take k)

/-! Helper lemmas about the sort and store primitives. -/

theorem mem_insertByScoreDesc {y e : LeaderboardEntry}
    {l : List LeaderboardEntry} :
    y ∈ insertByScoreDesc e l ↔ y = e ∨ y ∈ l := by
  induction l with
  | nil => simp [insertByScoreDesc]
  | cons x xs ih =>
      rw [insertByScoreDesc]
      split
      · simp only [List.mem_cons, ih]
        tauto
      · simp only [List.mem_cons]
        try tauto

theorem pairwise_insertByScoreDesc {e : LeaderboardEntry}
    {l : List LeaderboardEntry}
    (h : l.Pairwise (fun a b => b.score ≤ a.score)) :
    (insertByScoreDesc e l).Pairwise (fun a b => b.score ≤ a.score) := by
  induction l with
  | nil => simp [insertByScoreDesc]
  | cons x xs ih =>
      rw [List.pairwise_cons] at h
      obtain ⟨hx, hxs⟩ := h
      rw [insertByScoreDesc]
      split
      next hc =>
        rw [List.pairwise_cons]
        refine ⟨?_, ih hxs⟩
        intro y hy
        rcases mem_insertByScoreDesc.mp hy with rfl | hy
        · exact le_of_lt hc
        · exact hx y hy
      next hc =>
        push_neg at hc
        rw [List.pairwise_cons]
        refine ⟨?_, List.pairwise_cons.mpr ⟨hx, hxs⟩⟩
        intro y hy
        rcases List.mem_cons.mp hy with rfl | hy
        · exact hc
        · exact le_trans (hx y hy) hc

theorem pairwise_sortByScoreDesc (l : List LeaderboardEntry) :
    (sortByScoreDesc l).Pairwise (fun a b => b.score ≤ a.score) := by
  induction l with
  | nil => simp [sortByScoreDesc]
  | cons x xs ih =>
      rw [sortByScoreDesc]
      exact pairwise_insertByScoreDesc ih

theorem getUserScore_putItem_of_none {part : List LeaderboardEntry}
    {u : String} {item : LeaderboardEntry} (hid : item.userID = u)
    (h : getUserScore part u = none) :
    getUserScore (putItem part item) u = some item := by
  have hall : ∀ x ∈ part, ¬ ((x.userID == u) = true) :=
    List.find?_eq_none.mp h
  have hany : part.any (fun e => e.userID == item.userID) = false := by
    rw [List.any_eq_false]
    intro x hx
    rw [hid]
    exact hall x hx
  rw [putItem, if_neg (by simp [hany]), getUserScore, List.find?_append,
    show List.find? (fun e => e.userID == u) part = none from h]
  simp [List.find?_cons, hid]

theorem find?_map_replace {part : List LeaderboardEntry} {u : String}
    {item e : LeaderboardEntry} (hid : item.userID = u)
    (h : getUserScore part u = some e) :
    (part.map (fun x => if x.userID == item.userID then item else x)).find?
      (fun x => x.userID == u) = some item := by
  induction part with
  | nil => simp [getUserScore] at h
  | cons x xs ih =>
      rw [getUserScore, List.find?_cons] at h
      by_cases hxa : (x.userID == u) = true
      · have hxid : (x.userID == item.userID) = true := by
          rw [hid]
          exact hxa
        simp only [List.map_cons]
        rw [if_pos hxid]
        simp [List.find?_cons, hid]
      · have hxa2 : (x.userID == u) = false := Bool.eq_false_iff.mpr hxa
        have hxid : ¬ ((x.userID == item.userID) = true) := by
          rw [hid]
          exact hxa
        simp only [hxa2] at h
        simp only [List.map_cons]
        rw [if_neg hxid, List.find?_cons]
        simp only [hxa2]
        exact ih h

theorem getUserScore_putItem_of_some {part : List LeaderboardEntry}
    {u : String} {item e : LeaderboardEntry} (hid : item.userID = u)
    (h : getUserScore part u = some e) :
    getUserScore (putItem part item) u = some item := by
  have hmem := List.mem_of_find?_eq_some h
  have hp := List.find?_some h
  have hany : part.any (fun x => x.userID == item.userID) = true := by
    rw [List.any_eq_true]
    refine ⟨e, hmem, ?_⟩
    rw [hid]
    exact hp
  rw [putItem, if_pos (by simp [hany])]
  exact find?_map_replace hid h

theorem submitScore_eval_none {part : List LeaderboardEntry}
    {u : String} (name : String) (sc : Int)
    (h : getUserScore part u = none) :
    submitScore part u name sc =
      (putItem part ⟨u, name, sc⟩, ⟨true, none, true⟩) := by
  have hr : submitReadPhase part u = none := by
    rw [submitReadPhase, h]
    rfl
  rw [submitScore, hr]
  rfl

theorem submitScore_eval_some_new {part : List LeaderboardEntry}
    {u : String} {e : LeaderboardEntry} (name : String) (sc : Int)
    (h : getUserScore part u = some e)
    (hnew : isNewRecordCalc sc (some e.score) = true) :
    submitScore part u name sc =
      (putItem part ⟨u, name, sc⟩, ⟨true, some e.score, true⟩) := by
  have hr : submitReadPhase part u = some e.score := by
    rw [submitReadPhase, h]
    rfl
  rw [submitScore, hr, submitWritePhase, hnew]
  rfl

theorem submitScore_eval_some_old {part : List LeaderboardEntry}
    {u : String} {e : LeaderboardEntry} (name : String) (sc : Int)
    (h : getUserScore part u = some e)
    (hnew : isNewRecordCalc sc (some e.score) = false) :
    submitScore part u name sc = (part, ⟨true, some e.score, false⟩) := by
  have hr : submitReadPhase part u = some e.score := by
    rw [submitReadPhase, h]
    rfl
  rw [submitScore, hr, submitWritePhase, hnew]
  rfl

/-! Helper lemmas about binary64 rounding. -/

theorem roundHalfEven_intCast (n : ℤ) : roundHalfEven (n : ℚ) = n := by
  rw [roundHalfEven, Int.floor_intCast]
  norm_num

theorem abs_roundHalfEven_sub_le (m : ℚ) : |(roundHalfEven m : ℚ) - m| ≤ 1 / 2 := by
  have h0 : (⌊m⌋ : ℚ) ≤ m := Int.floor_le m
  have h1 : m < (⌊m⌋ : ℚ) + 1 := Int.lt_floor_add_one m
  rw [roundHalfEven]
  split_ifs with hc1 hc2 hc3
  · rw [abs_le]
    constructor <;> linarith
  · rw [abs_le]
    push_cast
    constructor <;> linarith
  · rw [abs_le]
    constructor <;> linarith
  · rw [abs_le]
    push_cast
    constructor <;> linarith

theorem log2_eq_of_zpow_bounds {q : ℚ} {l : ℤ} (hq : 0 < q)
    (h1 : (2 : ℚ) ^ l ≤ q) (h2 : q < (2 : ℚ) ^ (l + 1)) :
    Int.log 2 q = l := by
  have ha : l ≤ Int.log 2 q := (Int.zpow_le_iff_le_log (by norm_num) hq).mp h1
  have hb : Int.log 2 q < l + 1 := (Int.lt_zpow_iff_log_lt (by norm_num) hq).mp h2
  omega

theorem roundDouble_zero : roundDouble 0 = 0 := by
  rw [roundDouble, if_pos rfl]

theorem roundDouble_pos_eval (q : ℚ) (l : ℤ) (hq : 0 < q)
    (h1 : (2 : ℚ) ^ l ≤ q) (h2 : q < (2 : ℚ) ^ (l + 1)) :
    roundDouble q = (roundHalfEven (q / 2 ^ (l - 52)) : ℚ) * 2 ^ (l - 52) := by
  rw [roundDouble, if_neg (ne_of_gt hq), if_neg (not_lt.mpr (le_of_lt hq)),
    abs_of_pos hq, log2_eq_of_zpow_bounds hq h1 h2, one_mul]

theorem roundDouble_neg (q : ℚ) : roundDouble (-q) = - roundDouble q := by
  rcases lt_trichotomy q 0 with hq | hq | hq
  · rw [roundDouble, roundDouble, if_neg (by simpa using ne_of_lt hq),
      if_neg (ne_of_lt hq), abs_neg, if_neg (by linarith), if_pos hq]
    ring
  · rw [hq, neg_zero, roundDouble_zero]
    norm_num
  · rw [roundDouble, roundDouble, if_neg (by simpa using ne_of_gt hq),
      if_neg (ne_of_gt hq), abs_neg, if_pos (by linarith),
      if_neg (not_lt.mpr (le_of_lt hq))]
    ring

theorem roundDouble_intCast_pos {a : ℤ} (h1 : 1 ≤ a) (h2 : a < 2 ^ 53) :
    roundDouble (a : ℚ) = (a : ℚ) := by
  have haQ : (0 : ℚ) < (a : ℚ) := by exact_mod_cast h1
  have haQ1 : (1 : ℚ) ≤ (a : ℚ) := by exact_mod_cast h1
  have hl0 : 0 ≤ Int.log 2 ((a : ℚ)) := by
    rw [← Int.zpow_le_iff_le_log (by norm_num) haQ]
    simpa using haQ1
  have hl52 : Int.log 2 ((a : ℚ)) ≤ 52 := by
    have hlt : Int.log 2 ((a : ℚ)) < 53 := by
      rw [← Int.lt_zpow_iff_log_lt (by norm_num) haQ]
      have hcast : ((a : ℚ)) < ((2 ^ 53 : ℤ) : ℚ) := by exact_mod_cast h2
      calc (a : ℚ) < ((2 ^ 53 : ℤ) : ℚ) := hcast
        _ = (2 : ℚ) ^ (53 : ℤ) := by norm_num
    omega
  set l := Int.log 2 ((a : ℚ)) with hl
  have hk : ((52 - l).toNat : ℤ) = 52 - l := Int.toNat_of_nonneg (by omega)
  have hm : (a : ℚ) / 2 ^ (l - 52) = ((a * 2 ^ (52 - l).toNat : ℤ) : ℚ) := by
    rw [div_eq_mul_inv, ← zpow_neg]
    have hne : -(l - 52) = ((52 - l).toNat : ℤ) := by omega
    rw [hne, zpow_natCast]
    push_cast
    ring
  rw [roundDouble, if_neg (ne_of_gt haQ), if_neg (not_lt.mpr (le_of_lt haQ)),
    abs_of_pos haQ, ← hl, hm, roundHalfEven_intCast, one_mul]
  push_cast
  rw [mul_assoc, ← zpow_natCast (2 : ℚ), hk, ← zpow_add₀ (by norm_num : (2:ℚ) ≠ 0)]
  norm_num

theorem roundDouble_intCast {n : ℤ} (h : |n| < 2 ^ 53) :
    roundDouble (n : ℚ) = (n : ℚ) := by
  rcases lt_trichotomy n 0 with hn | hn | hn
  · have h1 : 1 ≤ -n := by omega
    have h2 : -n < 2 ^ 53 := by
      rw [abs_of_neg hn] at h
      omega
    have hpos := roundDouble_intCast_pos h1 h2
    rw [Int.cast_neg] at hpos
    calc roundDouble (n : ℚ) = roundDouble (- - (n : ℚ)) := by rw [neg_neg]
      _ = - roundDouble (- (n : ℚ)) := roundDouble_neg _
      _ = - - (n : ℚ) := by rw [hpos]
      _ = (n : ℚ) := neg_neg _
  · rw [hn]
    exact_mod_cast roundDouble_zero
  · exact roundDouble_intCast_pos (by omega) (by rw [abs_of_pos hn] at h; omega)

theorem roundDouble_rel_error_pos (q : ℚ) (hq : 0 < q) :
    |roundDouble q - q| ≤ q * 2 ^ (-53 : ℤ) := by
  set l := Int.log 2 q with hl
  have hlow : (2 : ℚ) ^ l ≤ q := Int.zpow_log_le_self (by norm_num) hq
  have hhigh : q < (2 : ℚ) ^ (l + 1) := Int.lt_zpow_succ_log_self (by norm_num) q
  have he : (0 : ℚ) < 2 ^ (l - 52) := zpow_pos (by norm_num) _
  have herr := abs_roundHalfEven_sub_le (q / 2 ^ (l - 52))
  rw [roundDouble_pos_eval q l hq hlow hhigh]
  have step1 : (roundHalfEven (q / 2 ^ (l - 52)) : ℚ) * 2 ^ (l - 52) - q
      = ((roundHalfEven (q / 2 ^ (l - 52)) : ℚ) - q / 2 ^ (l - 52)) * 2 ^ (l - 52) := by
    rw [sub_mul, div_mul_cancel₀ _ (ne_of_gt he)]
  rw [step1, abs_mul, abs_of_pos he]
  have step2 : |(roundHalfEven (q / 2 ^ (l - 52)) : ℚ) - q / 2 ^ (l - 52)| * 2 ^ (l - 52)
      ≤ (1 / 2) * 2 ^ (l - 52) :=
    mul_le_mul_of_nonneg_right herr (le_of_lt he)
  have step3 : (1 / 2 : ℚ) * 2 ^ (l - 52) ≤ q * 2 ^ (-53 : ℤ) := by
    have ha : (1 / 2 : ℚ) * 2 ^ (l - 52) = 2 ^ (l - 53 : ℤ) := by
      have hhalf : (1 / 2 : ℚ) = 2 ^ (-1 : ℤ) := by norm_num
      rw [hhalf, ← zpow_add₀ (by norm_num : (2:ℚ) ≠ 0)]
      congr 1
      omega
    have hb : (2 : ℚ) ^ (l - 53 : ℤ) = 2 ^ l * 2 ^ (-53 : ℤ) := by
      rw [← zpow_add₀ (by norm_num : (2:ℚ) ≠ 0)]
      congr 1
      try omega
    rw [ha, hb]
    exact mul_le_mul_of_nonneg_right hlow (le_of_lt (zpow_pos (by norm_num) _))
  linarith

theorem roundDouble_rel_error (q : ℚ) :
    |roundDouble q - q| ≤ |q| * 2 ^ (-53 : ℤ) := by
  rcases lt_trichotomy q 0 with hq | hq | hq
  · have h := roundDouble_rel_error_pos (-q) (by linarith)
    have hrw : roundDouble q = - roundDouble (-q) := by
      rw [← roundDouble_neg, neg_neg]
    rw [hrw, abs_of_neg hq,
      show - roundDouble (-q) - q = -(roundDouble (-q) - (-q)) from by ring,
      abs_neg]
    exact h
  · rw [hq, roundDouble_zero]
    simp
  · rw [abs_of_pos hq]
    exact roundDouble_rel_error_pos q hq

theorem roundDouble_17_40 :
    roundDouble (17 / 40 : ℚ) = 7656119366529843 / 18014398509481984 := by
  rw [roundDouble_pos_eval (17 / 40 : ℚ) (-2) (by norm_num) (by norm_num) (by norm_num)]
  rw [show (17 / 40 : ℚ) / 2 ^ ((-2 : ℤ) - 52) = 38280596832649216 / 5 by norm_num]
  have hr : roundHalfEven (38280596832649216 / 5 : ℚ) = 7656119366529843 := by
    have hf : ⌊(38280596832649216 / 5 : ℚ)⌋ = 7656119366529843 := by
      norm_num [Int.floor_eq_iff]
    rw [roundHalfEven, hf]
    norm_num
  rw [hr]
  norm_num

theorem roundDouble_one_sub_17_40 :
    roundDouble (1 - 7656119366529843 / 18014398509481984 : ℚ)
      = 5179139571476070 / 9007199254740992 := by
  rw [show (1 - 7656119366529843 / 18014398509481984 : ℚ)
    = 10358279142952141 / 18014398509481984 by norm_num]
  rw [roundDouble_pos_eval _ (-1) (by norm_num) (by norm_num) (by norm_num)]
  rw [show (10358279142952141 / 18014398509481984 : ℚ) / 2 ^ ((-1 : ℤ) - 52)
    = 10358279142952141 / 2 by norm_num]
  have hr : roundHalfEven (10358279142952141 / 2 : ℚ) = 5179139571476070 := by
    have hf : ⌊(10358279142952141 / 2 : ℚ)⌋ = 5179139571476070 := by
      norm_num [Int.floor_eq_iff]
    rw [roundHalfEven, hf]
    norm_num
  rw [hr]
  norm_num

theorem roundDouble_mul_100_57 :
    roundDouble (5179139571476070 / 9007199254740992 * 100 : ℚ)
      = 8092405580431359 / 140737488355328 := by
  rw [show (5179139571476070 / 9007199254740992 * 100 : ℚ)
    = 64739244643450875 / 1125899906842624 by norm_num]
  rw [roundDouble_pos_eval _ 5 (by norm_num) (by norm_num) (by norm_num)]
  rw [show (64739244643450875 / 1125899906842624 : ℚ) / 2 ^ ((5 : ℤ) - 52)
    = 64739244643450875 / 8 by norm_num]
  have hr : roundHalfEven (64739244643450875 / 8 : ℚ) = 8092405580431359 := by
    have hf : ⌊(64739244643450875 / 8 : ℚ)⌋ = 8092405580431359 := by
      norm_num [Int.floor_eq_iff]
    rw [roundHalfEven, hf]
    norm_num
  rw [hr]
  norm_num

/-! Claim theorems. -/

/-- C1 counterexample: with a stored score of 0, a record exists and a
resubmitted 0 is not strictly greater, yet `submitScore` reports a new
record (`isNewRecord = true`), contradicting the claim's "otherwise the
result reports accepted=false". -/
theorem submitScore_zero_stored_accepted_again :
    getUserScore [⟨"alice", "Alice", 0⟩] "alice" = some ⟨"alice", "Alice", 0⟩ ∧
    ¬ ((0 : Int) > 0) ∧
    (submitScore [⟨"alice", "Alice", 0⟩] "alice" "Alice" 0).2.isNewRecord = true := by
  decide

/-- C1 (amended): `submitScore` keeps max-score semantics except that a
stored score of 0 is treated like a missing record: the write happens
when no record exists, when the stored score is 0, or when the new
score is strictly greater; otherwise nothing is written and the prior
score is reported.  The 100-then-50 scenario behaves as claimed. -/
theorem submitScore_personal_best (part : List LeaderboardEntry)
    (u name : String) (sc : Int) :
    (getUserScore part u = none →
      (submitScore part u name sc).2 = ⟨true, none, true⟩ ∧
      getUserScore (submitScore part u name sc).1 u = some ⟨u, name, sc⟩) ∧
    (∀ e, getUserScore part u = some e → (e.score = 0 ∨ e.score < sc) →
      (submitScore part u name sc).2 = ⟨true, some e.score, true⟩ ∧
      getUserScore (submitScore part u name sc).1 u = some ⟨u, name, sc⟩) ∧
    (∀ e, getUserScore part u = some e → e.score ≠ 0 → sc ≤ e.score →
      (submitScore part u name sc).2 = ⟨true, some e.score, false⟩ ∧
      (submitScore part u name sc).1 = part) ∧
    ((submitScore (submitScore [] "alice" "Alice" 100).1 "alice" "Alice" 50).2
        = ⟨true, some 100, false⟩ ∧
      getUserScore (submitScore (submitScore [] "alice" "Alice" 100).1
        "alice" "Alice" 50).1 "alice" = some ⟨"alice", "Alice", 100⟩) := by
  refine ⟨?_, ?_, ?_, by decide⟩
  · intro h
    rw [submitScore_eval_none name sc h]
    exact ⟨rfl, getUserScore_putItem_of_none rfl h⟩
  · intro e h hor
    have hnew : isNewRecordCalc sc (some e.score) = true := by
      rcases hor with h0 | hlt
      · simp [isNewRecordCalc, jsTruthy, h0]
      · simp [isNewRecordCalc, jsTruthy, jsGreater, hlt]
    rw [submitScore_eval_some_new name sc h hnew]
    exact ⟨rfl, getUserScore_putItem_of_some rfl h⟩
  · intro e h h0 hle
    have hnew : isNewRecordCalc sc (some e.score) = false := by
      simp only [isNewRecordCalc, jsTruthy, jsGreater, Bool.or_eq_false_iff]
      constructor
      · simp [h0]
      · simp only [decide_eq_false_iff_not]
        omega
    rw [submitScore_eval_some_old name sc h hnew]
    exact ⟨rfl, rfl⟩

/-- C1 witness: applying the amended theorem at the concrete state
where alice holds 100 and submits 50. -/
theorem submitScore_personal_best_witness :
    (submitScore [⟨"alice", "Alice", 100⟩] "alice" "Alice" 50).2
      = ⟨true, some 100, false⟩ ∧
    (submitScore [⟨"alice", "Alice", 100⟩] "alice" "Alice" 50).1
      = [⟨"alice", "Alice", 100⟩] :=
  (submitScore_personal_best [⟨"alice", "Alice", 100⟩] "alice" "Alice" 50).2.2.1
    ⟨"alice", "Alice", 100⟩ (by decide) (by decide) (by decide)

/-- C2: `submitScore` is a plain read-then-write (a `GetCommand`
followed by an unconditional `PutCommand`), not a conditional update.
Interleaving the two phases of two racing submissions for the same
player (read, read, write 100, write 50) lets both observe "no existing
record", both write, and the LOWER score survive — the exact outcome
the claim says can never happen. -/
theorem submitScore_race_lower_score_survives :
    submitReadPhase ([] : List LeaderboardEntry) "alice" = none ∧
    (submitWritePhase [] "alice" "Alice" 100 none).2.isNewRecord = true ∧
    (submitWritePhase (submitWritePhase [] "alice" "Alice" 100 none).1
        "alice" "Alice" 50 none).2.isNewRecord = true ∧
    getUserScore (submitWritePhase (submitWritePhase [] "alice" "Alice" 100 none).1
        "alice" "Alice" 50 none).1 "alice" = some ⟨"alice", "Alice", 50⟩ := by
  decide

/-- C10: when the stored score is 0, `!previousScore` is true, so any
resubmission (even 0) is classified as a new record and rewrites the
entry, and the handler's score-improvement calculation treats the prior
score as absent (improvement = the full submitted score). -/
theorem submitScore_zero_treated_as_absent (part : List LeaderboardEntry)
    (u name : String) (sc : Int) (e : LeaderboardEntry)
    (h : getUserScore part u = some e) (h0 : e.score = 0) :
    (submitScore part u name sc).2.isNewRecord = true ∧
    (submitScore part u name sc).2.previousScore = some 0 ∧
    getUserScore (submitScore part u name sc).1 u = some ⟨u, name, sc⟩ ∧
    scoreImprovement sc (submitScore part u name sc).2.previousScore = sc := by
  have hnew : isNewRecordCalc sc (some e.score) = true := by
    simp [isNewRecordCalc, jsTruthy, h0]
  rw [submitScore_eval_some_new name sc h hnew]
  refine ⟨rfl, by rw [h0], getUserScore_putItem_of_some rfl h, ?_⟩
  rw [h0]
  rfl

/-- C10 witness: alice holds a stored 0 and submits 0 again; the code
accepts it as a new record with improvement 0. -/
theorem submitScore_zero_treated_as_absent_witness :
    (submitScore [⟨"alice", "Alice", 0⟩] "alice" "Alice" 0).2.isNewRecord = true ∧
    (submitScore [⟨"alice", "Alice", 0⟩] "alice" "Alice" 0).2.previousScore = some 0 ∧
    getUserScore (submitScore [⟨"alice", "Alice", 0⟩] "alice" "Alice" 0).1 "alice"
      = some ⟨"alice", "Alice", 0⟩ ∧
    scoreImprovement 0 (submitScore [⟨"alice", "Alice", 0⟩] "alice" "Alice" 0).2.previousScore = 0 :=
  submitScore_zero_treated_as_absent [⟨"alice", "Alice", 0⟩] "alice" "Alice" 0
    ⟨"alice", "Alice", 0⟩ (by decide) (by decide)

/-- C3: for a player present in a (consistent, one-record-per-player)
partition, `getUserRank` returns competition ranking — rank = number of
distinct players with a strictly greater score plus 1 — and
`totalPlayers` = number of distinct players; for an absent player it
returns nothing (the handler maps this to NotFound).  The
alice=100/bob=90/carol=90 scenario gives both bob and carol rank 2
of 3. -/
theorem getUserRank_competition_ranking (part : List LeaderboardEntry)
    (u : String) (hnd : (part.map (fun e => e.userID)).Nodup) :
    (getUserScore part u = none → getUserRank part u = none) ∧
    (∀ e, getUserScore part u = some e →
      getUserRank part u = some
        ⟨(((part.filter (fun x => x.score > e.score)).map
            (fun x => x.userID)).dedup).length + 1,
          ((part.map (fun e => e.userID)).dedup).length, e.score⟩) ∧
    (getUserRank [⟨"alice", "A", 100⟩, ⟨"bob", "B", 90⟩, ⟨"carol", "C", 90⟩] "bob"
        = some ⟨2, 3, 90⟩ ∧
      getUserRank [⟨"alice", "A", 100⟩, ⟨"bob", "B", 90⟩, ⟨"carol", "C", 90⟩] "carol"
        = some ⟨2, 3, 90⟩) := by
  refine ⟨?_, ?_, by decide⟩
  · intro h
    rw [getUserRank, getUserRankIdx, h]
  · intro e h
    rw [getUserRank, getUserRankIdx, h]
    have hsub :
        List.Sublist ((part.filter (fun x => x.score > e.score)).map
          (fun x => x.userID)) (part.map (fun x => x.userID)) :=
      (List.filter_sublist part).map _
    have h1 := hnd.sublist hsub
    rw [List.dedup_eq_self.mpr h1, List.dedup_eq_self.mpr hnd,
      List.length_map, List.length_map]
    rfl

/-- C3 witness: the amended-free theorem applied at a concrete
partition, showing NotFound for a never-submitted player. -/
theorem getUserRank_competition_ranking_witness :
    getUserRank [⟨"alice", "A", 100⟩, ⟨"bob", "B", 90⟩] "zoe" = none :=
  (getUserRank_competition_ranking [⟨"alice", "A", 100⟩, ⟨"bob", "B", 90⟩]
    "zoe" (by decide)).1 (by decide)

/-- C4: on the partition a=100, b=90, c=80, d=70 with contextSize 1,
player d is present, yet `getPlayersAroundUserRank` returns the two
top-of-leaderboard entries [a, b] — its "higher" query takes from the
top of the descending index, not from just above the target — so the
window does not contain the target player at all, contradicting the
claim that it contains the target exactly once with its immediate
neighbours. -/
theorem contextWindow_misses_target :
    getUserScore
      [⟨"a", "A", 100⟩, ⟨"b", "B", 90⟩, ⟨"c", "C", 80⟩, ⟨"d", "D", 70⟩] "d"
      = some ⟨"d", "D", 70⟩ ∧
    getPlayersAroundUserRank
      [⟨"a", "A", 100⟩, ⟨"b", "B", 90⟩, ⟨"c", "C", 80⟩, ⟨"d", "D", 70⟩] "d" 1
      = [⟨"a", "A", 100⟩, ⟨"b", "B", 90⟩] ∧
    ¬ ((⟨"d", "D", 70⟩ : LeaderboardEntry) ∈
      getPlayersAroundUserRank
        [⟨"a", "A", 100⟩, ⟨"b", "B", 90⟩, ⟨"c", "C", 80⟩, ⟨"d", "D", 70⟩] "d" 1) := by
  decide

/-- C6: no totalPlayers = 0 assertion exists on the rank/percentile
paths.  With the user present in the main table but the (eventually
consistent) RankIndex returning count 0, `getUserRank` returns a
success result with `totalPlayers = 0` instead of failing, the shared
percentile expression evaluates to NaN (division by zero) rather than
signalling an error, and the enrichment path forwards it silently. -/
theorem getUserRank_zero_total_not_rejected :
    getUserRankIdx [⟨"alice", "Alice", 100⟩] [] "alice" = some ⟨1, 0, 100⟩ ∧
    percentileOf 1 0 = JSNum.nan ∧
    enrichRankFields (some ⟨1, 0, 100⟩) = (1, 0, JSNum.nan) := by
  have hnan : percentileOf 1 0 = JSNum.nan := by
    rw [percentileOf, show (((1 : ℕ) : ℚ) - 1) = (0 : ℚ) by norm_num,
      roundDouble_zero, jsDiv, if_pos (by norm_num : ((0 : ℕ) : ℚ) = 0),
      if_pos rfl]
    rfl
  refine ⟨by decide, hnan, ?_⟩
  rw [enrichRankFields]
  rw [show percentileOf (RankInfo.mk 1 0 100).rank (RankInfo.mk 1 0 100).totalPlayers
    = JSNum.nan from hnan]

/-- C5 counterexample: a count of 101 is rejected with an error by
`parseNumberParameter`, not clamped to 100 as the claim states. -/
theorem count_above_ceiling_rejected :
    parseNumberParameter (some "101") (some 1) (some 100)
      = Except.error "Parameter must be at most the maximum" ∧
    parseNumberParameter (some "101") (some 1) (some 100) ≠ Except.ok 100 := by
  constructor
  · rfl
  · intro h
    rw [show parseNumberParameter (some "101") (some 1) (some 100)
      = Except.error "Parameter must be at most the maximum" from rfl] at h
    exact Except.noConfusion h

/-- C5 (amended): a count parsing to n with 1 ≤ n ≤ 100 is accepted as
n; a count above 100 is rejected with an error (not clamped); a count
below 1 is rejected; and the sequence `getTopPlayers` returns has
length at most the requested count. -/
theorem count_parameter_validation (v : String) (n : Int)
    (h : jsParseInt v = some n) :
    (1 ≤ n → n ≤ 100 → parseNumberParameter (some v) (some 1) (some 100)
      = Except.ok n) ∧
    (100 < n → parseNumberParameter (some v) (some 1) (some 100)
      = Except.error "Parameter must be at most the maximum") ∧
    (n < 1 → parseNumberParameter (some v) (some 1) (some 100)
      = Except.error "Parameter must be at least the minimum") ∧
    (∀ part : List LeaderboardEntry, ∀ k : Nat,
      (getTopPlayers part k).length ≤ k) := by
  have hv : ¬ (v = "") := by
    intro hv
    rw [hv, show jsParseInt "" = none from rfl] at h
    exact Option.noConfusion h
  refine ⟨?_, ?_, ?_, fun part k => List.length_take_le _ _⟩
  · intro ha hb
    rw [parseNumberParameter]
    simp only [if_neg hv, h]
    rw [if_neg (by simp only [belowBound, decide_eq_true_eq]; omega),
      if_neg (by simp only [aboveBound, decide_eq_true_eq]; omega)]
  · intro ha
    rw [parseNumberParameter]
    simp only [if_neg hv, h]
    rw [if_neg (by simp only [belowBound, decide_eq_true_eq]; omega),
      if_pos (by simp only [aboveBound, decide_eq_true_eq]; omega)]
  · intro ha
    rw [parseNumberParameter]
    simp only [if_neg hv, h]
    rw [if_pos (by simp only [belowBound, decide_eq_true_eq]; omega)]

/-- C5 witness: applying the validation theorem at the in-range count
string "50". -/
theorem count_parameter_validation_witness :
    parseNumberParameter (some "50") (some 1) (some 100) = Except.ok 50 :=
  (count_parameter_validation "50" 50 (by decide)).1 (by norm_num) (by norm_num)

/-- C7 counterexample: at rank 18 of 40 players the binary64 evaluation
of the percentile expression yields 57 — the double closest to
1 - 17/40 is just below 0.575, so the product is just below 57.5 and
`Math.round` goes down — while the exact specification formula
`round((1 - 17/40) * 100) = round(57.5)` yields 58.  The computed
percentile therefore does not equal the exact formula. -/
theorem percentileOf_binary64_counterexample :
    percentileOf 18 40 = JSNum.num 57 ∧
    specPercentile 18 40 = 58 ∧
    percentileOf 18 40 ≠ JSNum.num ((specPercentile 18 40 : ℤ) : ℚ) := by
  have h17 : roundDouble (((18 : ℕ) : ℚ) - 1) = 17 := by
    rw [show (((18 : ℕ) : ℚ) - 1 : ℚ) = ((17 : ℤ) : ℚ) by push_cast; norm_num]
    rw [roundDouble_intCast (by norm_num)]
    norm_num
  have hA : percentileOf 18 40 = JSNum.num 57 := by
    rw [percentileOf, h17, jsDiv, if_neg (by norm_num : ((40 : ℕ) : ℚ) ≠ 0)]
    rw [show ((17 : ℚ) / ((40 : ℕ) : ℚ)) = 17 / 40 by norm_num, roundDouble_17_40]
    simp only [jsSub]
    rw [roundDouble_one_sub_17_40]
    simp only [jsMul]
    rw [roundDouble_mul_100_57]
    simp only [jsRoundN, jsRoundQ]
    norm_num [Int.floor_eq_iff]
  have hB : specPercentile 18 40 = 58 := by
    rw [specPercentile, jsRoundQ]
    norm_num [Int.floor_eq_iff]
  refine ⟨hA, hB, ?_⟩
  rw [hA, hB]
  intro h
  injection h with h2
  norm_num at h2

/-- C7 (amended): for 1 ≤ rank ≤ totalPlayers < 2^53, the percentile
the code computes is the binary64 evaluation of
`round((1 - (rank - 1)/totalPlayers) * 100)`: an integer within 1 of
the exact formula (the double roundings can move the value across the
half-way point, as at rank 18 of 40), always in [0, 100], and exactly
100 for rank 1 (whose evaluation is exact in doubles). -/
theorem percentile_binary64_bounds (rank totalPlayers : Nat)
    (h1 : 1 ≤ rank) (h2 : rank ≤ totalPlayers) (h3 : totalPlayers < 2 ^ 53) :
    (∃ z : ℤ, percentileOf rank totalPlayers = JSNum.num ((z : ℤ) : ℚ) ∧
      0 ≤ z ∧ z ≤ 100 ∧
      specPercentile rank totalPlayers - 1 ≤ z ∧
      z ≤ specPercentile rank totalPlayers + 1) ∧
    (rank = 1 → percentileOf rank totalPlayers = JSNum.num 100) := by
  have ht0 : 0 < totalPlayers := lt_of_lt_of_le h1 h2
  have htQ0 : (0 : ℚ) < (totalPlayers : ℚ) := by exact_mod_cast ht0
  have htQ : ((totalPlayers : ℚ)) ≠ 0 := ne_of_gt htQ0
  have hrQ : (1 : ℚ) ≤ (rank : ℚ) := by exact_mod_cast h1
  have hrtQ : ((rank : ℚ)) ≤ (totalPlayers : ℚ) := by exact_mod_cast h2
  have hs1 : roundDouble ((rank : ℚ) - 1) = (rank : ℚ) - 1 := by
    have hcast : ((rank : ℚ) - 1) = (((rank : ℤ) - 1 : ℤ) : ℚ) := by
      push_cast
      ring
    have ha : (1 : ℤ) ≤ (rank : ℤ) := by exact_mod_cast h1
    have hb : (rank : ℤ) ≤ (totalPlayers : ℤ) := by exact_mod_cast h2
    have hc : (totalPlayers : ℤ) < 2 ^ 53 := by exact_mod_cast h3
    rw [hcast, roundDouble_intCast (by rw [abs_of_nonneg (by omega)]; omega)]
  constructor
  · set d : ℚ := ((rank : ℚ) - 1) / (totalPlayers : ℚ) with hd
    set q1 : ℚ := roundDouble d with hq1
    set q2 : ℚ := roundDouble (1 - q1) with hq2
    set q3 : ℚ := roundDouble (q2 * 100) with hq3
    have heval : percentileOf rank totalPlayers = JSNum.num ((jsRoundQ q3 : ℤ) : ℚ) := by
      rw [percentileOf, hs1, jsDiv, if_neg htQ]
      simp only [jsSub, jsMul, jsRoundN]
    have hε : ((2 : ℚ) ^ (-53 : ℤ)) = 1 / 9007199254740992 := by norm_num
    have hd0 : 0 ≤ d := by
      rw [hd]
      exact div_nonneg (by linarith) (le_of_lt htQ0)
    have hd1 : d < 1 := by
      rw [hd, div_lt_one htQ0]
      linarith
    have he1 : |q1 - d| ≤ d * (1 / 9007199254740992) := by
      have h := roundDouble_rel_error d
      rw [abs_of_nonneg hd0, hε] at h
      rw [hq1]
      exact h
    obtain ⟨he1a, he1b⟩ := abs_le.mp he1
    have hq1l : 0 ≤ q1 := by linarith
    have habs1 : |1 - q1| ≤ 1 := abs_le.mpr ⟨by linarith, by linarith⟩
    have he2 : |q2 - (1 - q1)| ≤ 1 * (1 / 9007199254740992) := by
      have h := roundDouble_rel_error (1 - q1)
      rw [hε] at h
      rw [hq2]
      calc |roundDouble (1 - q1) - (1 - q1)|
          ≤ |1 - q1| * (1 / 9007199254740992) := h
        _ ≤ 1 * (1 / 9007199254740992) :=
            mul_le_mul_of_nonneg_right habs1 (by norm_num)
    obtain ⟨he2a, he2b⟩ := abs_le.mp he2
    have habs2 : |q2 * 100| ≤ 101 := by
      rw [abs_mul]
      have hq2abs : |q2| ≤ 101 / 100 := abs_le.mpr ⟨by linarith, by linarith⟩
      calc |q2| * |(100 : ℚ)| = |q2| * 100 := by norm_num
        _ ≤ (101 / 100) * 100 := mul_le_mul_of_nonneg_right hq2abs (by norm_num)
        _ = 101 := by norm_num
    have he3 : |q3 - q2 * 100| ≤ 101 * (1 / 9007199254740992) := by
      have h := roundDouble_rel_error (q2 * 100)
      rw [hε] at h
      rw [hq3]
      calc |roundDouble (q2 * 100) - q2 * 100|
          ≤ |q2 * 100| * (1 / 9007199254740992) := h
        _ ≤ 101 * (1 / 9007199254740992) :=
            mul_le_mul_of_nonneg_right habs2 (by norm_num)
    obtain ⟨he3a, he3b⟩ := abs_le.mp he3
    have hx : specPercentile rank totalPlayers = ⌊(1 - d) * 100 + 1 / 2⌋ := by
      rw [specPercentile, jsRoundQ, hd]
    have hprox1 : q3 ≤ (1 - d) * 100 + 1 / 2 := by linarith
    have hprox2 : (1 - d) * 100 - 1 / 2 ≤ q3 := by linarith
    refine ⟨jsRoundQ q3, heval, ?_, ?_, ?_, ?_⟩
    · rw [jsRoundQ]
      apply Int.le_floor.mpr
      push_cast
      linarith
    · rw [jsRoundQ]
      have h101 : ⌊q3 + 1 / 2⌋ < 101 := by
        apply Int.floor_lt.mpr
        push_cast
        linarith
      omega
    · rw [hx, jsRoundQ]
      have hmono : ⌊(1 - d) * 100 + 1 / 2⌋ ≤ ⌊(q3 + 1 / 2) + 1⌋ :=
        Int.floor_le_floor (by linarith)
      have hadd : ⌊(q3 + 1 / 2) + 1⌋ = ⌊q3 + 1 / 2⌋ + 1 := by
        exact_mod_cast Int.floor_add_int (q3 + 1 / 2) 1
      omega
    · rw [hx, jsRoundQ]
      have hmono : ⌊q3 + 1 / 2⌋ ≤ ⌊((1 - d) * 100 + 1 / 2) + 1⌋ :=
        Int.floor_le_floor (by linarith)
      have hadd : ⌊((1 - d) * 100 + 1 / 2) + 1⌋ = ⌊(1 - d) * 100 + 1 / 2⌋ + 1 := by
        exact_mod_cast Int.floor_add_int ((1 - d) * 100 + 1 / 2) 1
      omega
  · intro hr
    subst hr
    rw [percentileOf]
    rw [show (((1 : ℕ) : ℚ) - 1 : ℚ) = ((0 : ℤ) : ℚ) by push_cast; ring]
    rw [roundDouble_intCast (by norm_num)]
    rw [jsDiv, if_neg htQ]
    rw [show (((0 : ℤ) : ℚ) / (totalPlayers : ℚ)) = 0 by push_cast; ring, roundDouble_zero]
    simp only [jsSub]
    rw [show ((1 : ℚ) - 0) = ((1 : ℤ) : ℚ) by norm_num, roundDouble_intCast (by norm_num)]
    simp only [jsMul]
    rw [show (((1 : ℤ) : ℚ) * 100) = ((100 : ℤ) : ℚ) by push_cast; ring,
      roundDouble_intCast (by norm_num)]
    simp only [jsRoundN, jsRoundQ]
    norm_num [Int.floor_eq_iff]

/-- C7 witness: the amended theorem applied at rank 2 of 3 and at
rank 1 of 5. -/
theorem percentile_binary64_bounds_witness :
    (∃ z : ℤ, percentileOf 2 3 = JSNum.num ((z : ℤ) : ℚ) ∧
      0 ≤ z ∧ z ≤ 100 ∧
      specPercentile 2 3 - 1 ≤ z ∧ z ≤ specPercentile 2 3 + 1) ∧
    percentileOf 1 5 = JSNum.num 100 :=
  ⟨(percentile_binary64_bounds 2 3 (by norm_num) (by norm_num) (by norm_num)).1,
    (percentile_binary64_bounds 1 5 (by norm_num) (by norm_num) (by norm_num)).2 rfl⟩

/-- C8: percentile band classification is the pure nine-band function
the claim describes, with each boundary inclusive at the band's upper
end. -/
theorem getPercentileBand_nine_bands (p : Int) :
    (99 ≤ p → getPercentileBand p = "Top 1%") ∧
    (95 ≤ p ∧ p < 99 → getPercentileBand p = "Top 5%") ∧
    (90 ≤ p ∧ p < 95 → getPercentileBand p = "Top 10%") ∧
    (75 ≤ p ∧ p < 90 → getPercentileBand p = "Top 25%") ∧
    (50 ≤ p ∧ p < 75 → getPercentileBand p = "Top 50%") ∧
    (25 ≤ p ∧ p < 50 → getPercentileBand p = "Bottom 75%") ∧
    (10 ≤ p ∧ p < 25 → getPercentileBand p = "Bottom 90%") ∧
    (5 ≤ p ∧ p < 10 → getPercentileBand p = "Bottom 95%") ∧
    (p < 5 → getPercentileBand p = "Bottom 99%") := by
  refine ⟨?_, ?_, ?_, ?_, ?_, ?_, ?_, ?_, ?_⟩ <;> intro h <;> rw [getPercentileBand]
  · rw [if_pos (by omega)]
  · rw [if_neg (not_le.mpr (by omega)), if_pos (by omega)]
  · rw [if_neg (not_le.mpr (by omega)), if_neg (not_le.mpr (by omega)),
      if_pos (by omega)]
  · rw [if_neg (not_le.mpr (by omega)), if_neg (not_le.mpr (by omega)),
      if_neg (not_le.mpr (by omega)), if_pos (by omega)]
  · rw [if_neg (not_le.mpr (by omega)), if_neg (not_le.mpr (by omega)),
      if_neg (not_le.mpr (by omega)), if_neg (not_le.mpr (by omega)),
      if_pos (by omega)]
  · rw [if_neg (not_le.mpr (by omega)), if_neg (not_le.mpr (by omega)),
      if_neg (not_le.mpr (by omega)), if_neg (not_le.mpr (by omega)),
      if_neg (not_le.mpr (by omega)), if_pos (by omega)]
  · rw [if_neg (not_le.mpr (by omega)), if_neg (not_le.mpr (by omega)),
      if_neg (not_le.mpr (by omega)), if_neg (not_le.mpr (by omega)),
      if_neg (not_le.mpr (by omega)), if_neg (not_le.mpr (by omega)),
      if_pos (by omega)]
  · rw [if_neg (not_le.mpr (by omega)), if_neg (not_le.mpr (by omega)),
      if_neg (not_le.mpr (by omega)), if_neg (not_le.mpr (by omega)),
      if_neg (not_le.mpr (by omega)), if_neg (not_le.mpr (by omega)),
      if_neg (not_le.mpr (by omega)), if_pos (by omega)]
  · rw [if_neg (not_le.mpr (by omega)), if_neg (not_le.mpr (by omega)),
      if_neg (not_le.mpr (by omega)), if_neg (not_le.mpr (by omega)),
      if_neg (not_le.mpr (by omega)), if_neg (not_le.mpr (by omega)),
      if_neg (not_le.mpr (by omega)), if_neg (not_le.mpr (by omega))]

/-- C8 witness: one representative percentile per band. -/
theorem getPercentileBand_nine_bands_witness :
    getPercentileBand 100 = "Top 1%" ∧
    getPercentileBand 97 = "Top 5%" ∧
    getPercentileBand 92 = "Top 10%" ∧
    getPercentileBand 80 = "Top 25%" ∧
    getPercentileBand 60 = "Top 50%" ∧
    getPercentileBand 30 = "Bottom 75%" ∧
    getPercentileBand 15 = "Bottom 90%" ∧
    getPercentileBand 7 = "Bottom 95%" ∧
    getPercentileBand 0 = "Bottom 99%" :=
  ⟨(getPercentileBand_nine_bands 100).1 (by norm_num),
    (getPercentileBand_nine_bands 97).2.1 (by norm_num),
    (getPercentileBand_nine_bands 92).2.2.1 (by norm_num),
    (getPercentileBand_nine_bands 80).2.2.2.1 (by norm_num),
    (getPercentileBand_nine_bands 60).2.2.2.2.1 (by norm_num),
    (getPercentileBand_nine_bands 30).2.2.2.2.2.1 (by norm_num),
    (getPercentileBand_nine_bands 15).2.2.2.2.2.2.1 (by norm_num),
    (getPercentileBand_nine_bands 7).2.2.2.2.2.2.2.1 (by norm_num),
    (getPercentileBand_nine_bands 0).2.2.2.2.2.2.2.2 (by norm_num)⟩

/-- C9 counterexample: with bob stored before alice at the same score
90, `getTopPlayers` returns [bob, alice] — the storage/index order —
while the claimed playerId-ascending tie order would give
[alice, bob]. -/
theorem getTopPlayers_tie_order_not_playerId :
    getTopPlayers [⟨"bob", "Bob", 90⟩, ⟨"alice", "Alice", 90⟩] 2
      = [⟨"bob", "Bob", 90⟩, ⟨"alice", "Alice", 90⟩] ∧
    specTopK [⟨"bob", "Bob", 90⟩, ⟨"alice", "Alice", 90⟩] 2
      = [⟨"alice", "Alice", 90⟩, ⟨"bob", "Bob", 90⟩] ∧
    getTopPlayers [⟨"bob", "Bob", 90⟩, ⟨"alice", "Alice", 90⟩] 2
      ≠ specTopK [⟨"bob", "Bob", 90⟩, ⟨"alice", "Alice", 90⟩] 2 := by
  decide

/-- C9 (amended): `getTopPlayers` is sorted by score descending with
length at most the requested count; equal scores are returned in the
stored index order (the code applies no playerId tie-break), so the
result is deterministic only for a fixed storage state. -/
theorem getTopPlayers_sorted_desc (part : List LeaderboardEntry)
    (count : Nat) :
    (getTopPlayers part count).Pairwise (fun a b => b.score ≤ a.score) ∧
    (getTopPlayers part count).length ≤ count := by
  constructor
  · rw [getTopPlayers]
    exact (pairwise_sortByScoreDesc part).sublist (List.take_sublist _ _)
  · exact List.length_take_le _ _

end Nexus
